import Mathlib

/-!
# Verification of the rpc-tester probing engine

A shallow embedding of `src/index.js` of the `rpc-tester` repository:
the bounded work scheduler (`batchCall`), the three-stage endpoint prober
(`checkConnect`, `checkRpc`, `checkIpv6`, assembled in `main`'s task
functions), the per-chain processing loop of `main`, and the concurrency
argument handling of `parseArgs`.

Network and filesystem behaviour is environmental: each probe stage's
outcome is a field of a `ProbeEnv` record, and the per-chain file system
lookup is an `Option Json` argument.  Everything the program itself
computes is translated directly from the source.
-/

namespace RpcTester

/-! ## Bounded work scheduler (`batchCall`, src/index.js lines 51-63)

```js
async function batchCall(tasks, concurrency) {
  const results = []
  let index = 0
  async function worker() {
    while (index < tasks.length) {
      const i = index++
      results[i] = tasks[i]()
    }
  }
  const workers = Array.from({ length: Math.min(concurrency, tasks.length) }, () => worker())
  await Promise.all(workers)
  return Promise.all(results)
}
```

The loop body `results[i] = tasks[i]()` stores the pending promise of task
`i` without awaiting it, so the body of `worker` contains no suspension
point: a call to `worker()` runs the whole `while` loop inside one
synchronous slice of the (single-threaded) event loop.  `workerRun` models
that loop; the fuel argument only serves structural termination and is
always given enough (the cursor strictly increases towards `n`, so `n + 1`
units never run out — see `workerRun_spec`). -/

/-- State shared by the workers of one `batchCall` invocation: the cursor
`index` and the list of claimed task indices, in claim order (slot `i` of
the JS `results` array receives `tasks[i]()` when `i` is claimed). -/
structure SchedState where
  index : Nat
  claimed : List Nat
deriving Repr, DecidableEq

/-- The `while (index < tasks.length)` loop of `worker`: claim the cursor
position, bump the cursor, start the task (recording the claim), repeat.
No iteration awaits anything, so the whole loop is one synchronous slice. -/
def workerRun (n : Nat) : Nat → SchedState → SchedState
  | 0, s => s
  | fuel + 1, s =>
    if s.index < n then workerRun n fuel ⟨s.index + 1, s.claimed ++ [s.index]⟩ else s

/-- One call `worker()` for a task list of length `n`. -/
def worker (n : Nat) (s : SchedState) : SchedState :=
  workerRun n (n + 1) s

/-- `Array.from({length: w}, () => worker())`: the `w` worker invocations
run one after the other (each is synchronous, see above). -/
def runWorkers (n : Nat) : Nat → SchedState → SchedState
  | 0, s => s
  | w + 1, s => runWorkers n w (worker n s)

/-- The indices claimed (in claim order) by `batchCall` on `n` tasks with
concurrency `C`: `Math.min(concurrency, tasks.length)` workers starting
from cursor `0` and an empty `results` array. -/
def batchClaims (n C : Nat) : List Nat :=
  (runWorkers n (min C n) ⟨0, []⟩).claimed

/-- A task handed to `batchCall`: an async function whose promise settles
after `steps` event-loop ticks, either fulfilling with a value or rejecting
with an error message. -/
structure AsyncTask (V : Type) where
  steps : Nat
  outcome : Except String V
deriving Repr

/-- The rejected promises among `tasks`, as `(steps, position, message)`
triples, scanning positions upward from `i`. -/
def rejectionsFrom {V : Type} (i : Nat) : List (AsyncTask V) → List (Nat × Nat × String)
  | [] => []
  | t :: ts =>
    match t.outcome with
    | .error e => (t.steps, i, e) :: rejectionsFrom (i + 1) ts
    | .ok _ => rejectionsFrom (i + 1) ts

/-- All rejected promises among `tasks` with their settle data. -/
def rejections {V : Type} (tasks : List (AsyncTask V)) : List (Nat × Nat × String) :=
  rejectionsFrom 0 tasks

/-- Promise `a` settles strictly before promise `b`: earlier tick, or same
tick and started earlier (all tasks are started in position order within
the initial synchronous slice, so ties break by position). -/
def earlierSettle (a b : Nat × Nat × String) : Bool :=
  a.1 < b.1 || (a.1 == b.1 && a.2.1 < b.2.1)

/-- The rejection reason `Promise.all(results)` rejects with, if any: the
message of the earliest-settling rejected promise. -/
def firstRejection {V : Type} (tasks : List (AsyncTask V)) : Option String :=
  match rejections tasks with
  | [] => none
  | r :: rs => some ((rs.foldl (fun best c => if earlierSettle c best then c else best) r).2.2)

/-- `batchCall(tasks, concurrency)`.  Slot `i` of `results` holds the
promise of `tasks[i]` once `i` is claimed, and the cursor is monotone, so
the claim list enumerates the filled slots in positional order; the final
`return Promise.all(results)` rejects with the first rejection among them
or fulfills with their values positionally. -/
def batchCall {V : Type} (tasks : List (AsyncTask V)) (C : Nat) : Except String (List V) :=
  let slots := (batchClaims tasks.length C).filterMap fun i => tasks[i]?
  match firstRejection slots with
  | some e => .error e
  | none => .ok (slots.filterMap fun t => t.outcome.toOption)

/-- How many tasks are concurrently executing at event-loop instant `t`.
Every claimed task is started during the initial synchronous slice (the
worker loop never suspends), i.e. at instant `0`; a task whose promise
settles after `steps` ticks is still in flight at every instant `t <
steps`. -/
def concurrentAt {V : Type} (tasks : List (AsyncTask V)) (C t : Nat) : Nat :=
  ((batchClaims tasks.length C).filterMap fun i => tasks[i]?).countP fun task => t < task.steps

/-! ## JSON values and the RPC correctness check (lines 13, 94-113) -/

/-- A parsed JSON value, as produced by `res.json()`. -/
inductive Json where
  | null
  | bool (b : Bool)
  | num (n : Int)
  | str (s : String)
  | arr (elems : List Json)
  | obj (fields : List (String × Json))

/-- JS optional-chaining property access `data?.result`: only a non-null
object yields its property, every other value (and a missing key) gives
`undefined`, modelled as `none`. -/
def jsField (j : Json) (key : String) : Option Json :=
  match j with
  | .obj fields => fields.lookup key
  | _ => none

/-- Membership in the character class `[0-9a-fA-F]` of `HEX_RESULT`. -/
def hexDigit (c : Char) : Bool :=
  ('0' ≤ c && c ≤ '9') || ('a' ≤ c && c ≤ 'f') || ('A' ≤ c && c ≤ 'F')

/-- `HEX_RESULT.test(s)` for `HEX_RESULT = /^0x[0-9a-fA-F]+$/` (line 13):
the whole string is `0x` followed by at least one hex digit. -/
def hexResultTest (s : String) : Bool :=
  match s.data with
  | c1 :: c2 :: rest => c1 == '0' && c2 == 'x' && !rest.isEmpty && rest.all hexDigit
  | _ => false

/-- `checkRpc` (lines 94-113), as a function of the parsed response body.
`resp = none` models every throw inside the `try`: the POST itself failing
or timing out, or `res.json()` failing to parse the body.  Otherwise the
source computes `data?.result` and returns
`typeof result === "string" && HEX_RESULT.test(result)`.
The HTTP status is never consulted. -/
def checkRpc (resp : Option Json) : Bool :=
  match resp with
  | none => false
  | some data =>
    match jsField data "result" with
    | some (.str s) => hexResultTest s
    | _ => false

/-! ## IPv6 check and host extraction (lines 75-81, 115-123) -/

/-- Outcome of the AAAA resolution race in `checkIpv6`: the resolver
returned a record list, the resolver rejected, or the 5000 ms timer won
the `Promise.race`. -/
inductive DnsOutcome where
  | records (rs : List String)
  | failed
  | timedOut
deriving Repr, DecidableEq

/-- `extractHost` (lines 75-81): `new URL(url).hostname`, or `""` when the
`URL` constructor throws.  The runtime's URL parser is environmental, so
the argument is its result: `some h` = parse succeeded with hostname `h`,
`none` = constructor threw. -/
def extractHost (urlHost : Option String) : String :=
  urlHost.getD ""

/-- `checkIpv6` (lines 115-123) with an instrumented second component
recording whether `dnsResolve` was invoked at all.  `if (!host) return
false` fires exactly on the empty string (the only falsy value
`extractHost` can produce), before any resolution; otherwise the result is
`Array.isArray(aaaa) && aaaa.length > 0` on success and `false` on a
rejection or on the 5000 ms timeout, via the surrounding `catch`. -/
def checkIpv6 (host : String) (dns : DnsOutcome) : Bool × Bool :=
  if host = "" then (false, false)
  else
    match dns with
    | .records rs => (!rs.isEmpty, true)
    | .failed => (false, true)
    | .timedOut => (false, true)

/-! ## The per-URL probe task (lines 83-92 and 188-196) -/

/-- The environment one probe runs against: whether the stage-1 `fetch`
settles successfully within its 3000 ms timeout, the parsed body of the
stage-2 JSON-RPC POST (`none` = request failed, timed out, or body was not
JSON), the runtime's parse of the URL's hostname, and the AAAA resolution
outcome. -/
structure ProbeEnv where
  connectOk : Bool
  rpcResp : Option Json
  urlHost : Option String
  dns : DnsOutcome

/-- One entry of a persisted `rpcs` list: `{ url, supportsIpv6 }`. -/
structure RpcEntry where
  url : String
  supportsIpv6 : Bool
deriving Repr, DecidableEq

/-- A stage request the probe can issue. -/
inductive Query where
  | connectReq
  | rpcReq
  | dnsReq
deriving Repr, DecidableEq

/-- `checkConnect` (lines 83-92) as seen by a task of `main`: the `url`
argument may be `undefined` (`none`) when the chain's entry had no `url`
field, in which case `fetch(undefined)` rejects while parsing its URL
argument and the `catch` returns `false` no matter the network. -/
def checkConnect (url : Option String) (env : ProbeEnv) : Bool :=
  match url with
  | none => false
  | some _ => env.connectOk

/-- One task built in `main` (lines 188-196), with an instrumented log of
the stage requests it issues:

```js
const connected = await checkConnect(url)
if (!connected) return null
const rpcOk = await checkRpc(url)
if (!rpcOk) return null
const host = extractHost(url)
const supportsIpv6 = await checkIpv6(host)
return { url, supportsIpv6 }
```

`checkConnect` and `checkRpc` always issue their request; `checkIpv6`
reaches `dnsResolve` only for a non-empty host. -/
def probeTask (url : Option String) (env : ProbeEnv) : Option RpcEntry × List Query :=
  if checkConnect url env = false then (none, [.connectReq])
  else if checkRpc env.rpcResp = false then (none, [.connectReq, .rpcReq])
  else
    let host := extractHost env.urlHost
    let r := checkIpv6 host env.dns
    (some ⟨url.getD "", r.1⟩, [.connectReq, .rpcReq] ++ (if r.2 then [.dnsReq] else []))

/-! ## Chain data and `getRpcs` (lines 65-73) -/

/-- One entry of a chain's `rpc` array: a plain URL string, an object with
a `url` field, or anything else (an object without `url`, `null`, a
number, ...) for which `typeof entry === "string" ? entry : entry?.url`
evaluates to `undefined`. -/
inductive RpcInput where
  | str (s : String)
  | urlObj (u : String)
  | other
deriving Repr, DecidableEq

/-- A chain descriptor as `main` consumes it.  `chainId` is the identifier
rendered as the string `String(chainId)` used for keys and file names;
`none` models `chainId == null`.  `name = none` models an absent `name`
(`chain.name ?? "unknown"`). -/
structure ChainData where
  name : Option String
  chainId : Option String
  rpc : List RpcInput

/-- `getRpcs` (lines 65-73): map every entry to its URL, pushing
`undefined` (`none`) for entries that are neither strings nor objects with
a `url` field.  Nothing is filtered out. -/
def getRpcs (chain : ChainData) : List (Option String) :=
  chain.rpc.map fun e =>
    match e with
    | .str s => some s
    | .urlObj u => some u
    | .other => none

/-- The payload written per chain: `{ name, chainId, rpcs }`. -/
structure Payload where
  name : String
  chainId : String
  rpcs : List RpcEntry
deriving Repr, DecidableEq

/-- The value `main` stores in `merged[String(chainId)]`: either the
parsed content of an already existing per-chain file (skip-existing
branch) or a freshly built payload. -/
inductive MergedEntry where
  | fromFile (doc : Json)
  | fresh (p : Payload)

/-- An observable side effect of processing one chain: a stage request on
the network, or a `fs.writeFileSync` of the per-chain file. -/
inductive Effect where
  | net (q : Query)
  | write (cid : String) (p : Payload)

/-- The per-URL report-and-collect loop of `main` (lines 200-215).  For
each position it first computes
`const shortUrl = url.length > 60 ? url.slice(0, 57) + "..." : url`;
when `url` is `undefined` (`none`) this property access throws a
`TypeError`, which nothing inside `main` catches.  Otherwise a truthy
outcome is pushed onto `rpcs` and a falsy one is skipped. -/
def reportLoop : List (Option String) → List (Option RpcEntry) → Except String (List RpcEntry)
  | [], _ => .ok []
  | none :: _, _ => .error "TypeError: url is undefined"
  | some _ :: urls, [] => reportLoop urls []
  | some _ :: urls, o :: os =>
    match o with
    | some r => (reportLoop urls os).map (fun rest => r :: rest)
    | none => reportLoop urls os

/-- Processing of one chain inside `main`'s `for` loop (lines 160-218),
with the probe environments supplied positionally for the chain's URLs.
`file` is the filesystem's answer for `outDir/<chainId>.json`: `some doc`
means `fs.existsSync` is true and the file content parses (via
`JSON.parse(fs.readFileSync(...))`) to `doc`.

The branches, in source order: a `null` or `""` chain id ⇒ `continue`;
skip-existing with an existing file ⇒ reuse the parsed document, no
probing and no write; an empty URL list ⇒ write an empty payload without
invoking the scheduler; otherwise probe every URL, run the report loop
(which can throw, aborting the run), and write the assembled payload.
An `.error` propagates out of `main` into `main().catch`, which prints it
and exits the process with a non-zero status. -/
def processChain (skipExisting : Bool) (file : Option Json) (chain : ChainData)
    (envs : List ProbeEnv) : Except String (Option MergedEntry × List Effect) :=
  match chain.chainId with
  | none => .ok (none, [])
  | some cid =>
    if cid = "" then .ok (none, [])
    else
      match skipExisting, file with
      | true, some doc => .ok (some (.fromFile doc), [])
      | _, _ =>
        let name := chain.name.getD "unknown"
        let urls := getRpcs chain
        if urls.isEmpty then
          .ok (some (.fresh ⟨name, cid, []⟩), [.write cid ⟨name, cid, []⟩])
        else
          let pairs := urls.zip envs
          let outcomes := pairs.map fun p => (probeTask p.1 p.2).1
          let queries := (pairs.map fun p => (probeTask p.1 p.2).2).flatten
          match reportLoop urls outcomes with
          | .error e => .error e
          | .ok rpcs =>
            .ok (some (.fresh ⟨name, cid, rpcs⟩),
                 (queries.map Effect.net) ++ [.write cid ⟨name, cid, rpcs⟩])

/-! ## Concurrency argument (lines 14 and 42-48) -/

/-- `BATCH_SIZE` (line 14). -/
def BATCH_SIZE : Int := 16

/-- The `batchSize` field computed by `parseArgs` (lines 42-48):

```js
const batch = batchArg ? parseInt(batchArg.split("=")[1], 10) : BATCH_SIZE
batchSize: Number.isNaN(batch) || batch < 1 ? BATCH_SIZE : Math.min(batch, 128)
```

The argument is the `parseInt` view of the command line: `none` = no
`--batch=` argument was given, `some none` = the argument was given but
`parseInt` returned `NaN`, `some (some v)` = `parseInt` returned `v`. -/
def effectiveBatchSize (batchArg : Option (Option Int)) : Int :=
  let batch : Option Int :=
    match batchArg with
    | none => some BATCH_SIZE
    | some p => p
  match batch with
  | none => BATCH_SIZE
  | some b => if b < 1 then BATCH_SIZE else min b 128

/-! ## Scheduler lemmas -/

/-- Given enough fuel (the cursor strictly increases towards `n`, so
`n - s.index` steps suffice), the worker loop drives the cursor to `n` and
claims every index from the cursor upward, in order. -/
theorem workerRun_spec (n : Nat) :
    ∀ (fuel : Nat) (s : SchedState), n - s.index ≤ fuel →
      workerRun n fuel s = ⟨max s.index n, s.claimed ++ List.range' s.index (n - s.index)⟩ := by
  intro fuel
  induction fuel with
  | zero =>
    rintro ⟨i, c⟩ h
    change n - i ≤ 0 at h
    simp only [workerRun]
    have h1 : n - i = 0 := by omega
    have h2 : max i n = i := max_eq_left (by omega)
    simp [h1, h2]
  | succ fuel ih =>
    rintro ⟨i, c⟩ h
    change n - i ≤ fuel + 1 at h
    simp only [workerRun]
    by_cases h' : i < n
    · rw [if_pos h']
      rw [ih ⟨i + 1, c ++ [i]⟩ (by change n - (i + 1) ≤ fuel; omega)]
      have hmax : max (i + 1) n = max i n := by
        rw [max_eq_right (by omega : i + 1 ≤ n), max_eq_right (by omega : i ≤ n)]
      have hrange : n - i = (n - (i + 1)) + 1 := by omega
      simp only [hmax, hrange, List.range'_succ, List.append_assoc, List.singleton_append]
    · rw [if_neg h']
      have h1 : n - i = 0 := by omega
      have h2 : max i n = i := max_eq_left (by omega)
      simp [h1, h2]

/-- A single `worker()` call started at cursor `0` claims every task:
the loop body never suspends, so nothing interleaves with it. -/
theorem worker_start (n : Nat) : worker n ⟨0, []⟩ = ⟨n, List.range n⟩ := by
  rw [worker, workerRun_spec n (n + 1) ⟨0, []⟩ (by omega)]
  simp [List.range_eq_range']

/-- Once the cursor has reached `n`, further workers return immediately. -/
theorem runWorkers_stable (n : Nat) : ∀ (w : Nat) (l : List Nat),
    runWorkers n w ⟨n, l⟩ = ⟨n, l⟩ := by
  intro w
  induction w with
  | zero => intro l; rfl
  | succ w ih =>
    intro l
    have hw : worker n ⟨n, l⟩ = ⟨n, l⟩ := by
      rw [worker, workerRun_spec n (n + 1) ⟨n, l⟩ (by omega)]
      simp
    simp only [runWorkers, hw, ih]

/-- With at least one worker, the claim list is exactly `0, 1, …, n-1`:
the first worker claims every task in positional order and the rest find
the cursor exhausted. -/
theorem batchClaims_eq_range (n C : Nat) (hC : 1 ≤ C) :
    batchClaims n C = List.range n := by
  unfold batchClaims
  cases n with
  | zero =>
    have h0 : min C 0 = 0 := Nat.min_zero C
    rw [h0]
    rfl
  | succ m =>
    have h1 : 1 ≤ min C (m + 1) := le_min hC (by omega)
    obtain ⟨w, hw⟩ := Nat.exists_eq_add_of_le h1
    rw [hw, Nat.add_comm 1 w]
    simp only [runWorkers, worker_start, runWorkers_stable]

/-- Reading a list back positionally over `range` reproduces it. -/
theorem filterMap_getElem_range {α : Type} (l : List α) :
    (List.range l.length).filterMap (fun i => l[i]?) = l := by
  induction l with
  | nil => simp
  | cons x xs ih =>
    rw [List.length_cons, List.range_succ_eq_map, List.filterMap_cons, List.filterMap_map]
    simp only [List.getElem?_cons_zero]
    have hc : ((fun i => (x :: xs)[i]?) ∘ Nat.succ) = fun i => xs[i]? := by
      funext i
      show (x :: xs)[i + 1]? = xs[i]?
      exact List.getElem?_cons_succ
    rw [hc, ih]

/-- Tasks that all fulfill produce no rejection entries. -/
theorem rejectionsFrom_eq_nil {V : Type} (l : List (AsyncTask V))
    (h : ∀ t ∈ l, ∃ v, t.outcome = Except.ok v) :
    ∀ i, rejectionsFrom i l = [] := by
  induction l with
  | nil => intro i; rfl
  | cons t ts ih =>
    intro i
    obtain ⟨v, hv⟩ := h t (by simp)
    simp only [rejectionsFrom, hv]
    exact ih (fun u hu => h u (by simp [hu])) (i + 1)

/-- Tasks that all fulfill give `firstRejection = none`. -/
theorem firstRejection_none {V : Type} (tasks : List (AsyncTask V))
    (h : ∀ t ∈ tasks, ∃ v, t.outcome = Except.ok v) :
    firstRejection tasks = none := by
  unfold firstRejection rejections
  rw [rejectionsFrom_eq_nil tasks h 0]

/-- With at least one worker the slot list of `batchCall` is the task list
itself, so `batchCall` reduces to `Promise.all` over the tasks in
positional order. -/
theorem batchCall_eq {V : Type} (tasks : List (AsyncTask V)) (C : Nat) (hC : 1 ≤ C) :
    batchCall tasks C =
      match firstRejection tasks with
      | some e => .error e
      | none => .ok (tasks.filterMap fun t => t.outcome.toOption) := by
  unfold batchCall
  rw [batchClaims_eq_range _ _ hC, filterMap_getElem_range]

/-- A `filterMap` whose function never drops an element is positional. -/
theorem filterMap_all_isSome {α β : Type} (f : α → Option β) (l : List α)
    (h : ∀ a ∈ l, (f a).isSome) :
    (l.filterMap f).length = l.length ∧
      ∀ (i : Nat) (a : α), l[i]? = some a → (l.filterMap f)[i]? = f a := by
  induction l with
  | nil =>
    refine ⟨rfl, ?_⟩
    intro i a ha
    simp at ha
  | cons x xs ih =>
    obtain ⟨y, hy⟩ := Option.isSome_iff_exists.mp (h x (by simp))
    obtain ⟨h1, h2⟩ := ih (fun a ha => h a (by simp [ha]))
    refine ⟨by simp [List.filterMap_cons, hy, h1], ?_⟩
    intro i a ha
    cases i with
    | zero =>
      simp only [List.getElem?_cons_zero, Option.some.injEq] at ha
      subst ha
      simp [List.filterMap_cons, hy]
    | succ j =>
      simp only [List.getElem?_cons_succ] at ha
      simp only [List.filterMap_cons, hy, List.getElem?_cons_succ]
      exact h2 j a ha

/-! ## Prober lemmas -/

/-- A failed connectivity stage short-circuits the task. -/
theorem probeTask_connect_fail (url : Option String) (env : ProbeEnv)
    (h : checkConnect url env = false) :
    probeTask url env = (none, [Query.connectReq]) := by
  simp [probeTask, h]

/-- A failed RPC stage short-circuits the task after two requests. -/
theorem probeTask_rpc_fail (url : Option String) (env : ProbeEnv)
    (h1 : checkConnect url env = true) (h2 : checkRpc env.rpcResp = false) :
    probeTask url env = (none, [Query.connectReq, Query.rpcReq]) := by
  simp [probeTask, h1, h2]

/-- Both gate stages passing yield a present outcome carrying the IPv6
flag, whatever that flag is. -/
theorem probeTask_pass (url : Option String) (env : ProbeEnv)
    (h1 : checkConnect url env = true) (h2 : checkRpc env.rpcResp = true) :
    probeTask url env =
      (some ⟨url.getD "", (checkIpv6 (extractHost env.urlHost) env.dns).1⟩,
       [Query.connectReq, Query.rpcReq] ++
         (if (checkIpv6 (extractHost env.urlHost) env.dns).2 then [Query.dnsReq] else [])) := by
  simp [probeTask, h1, h2]

/-- A present probe outcome carries the probed URL itself. -/
theorem probeTask_url (u : String) (env : ProbeEnv) (r : RpcEntry)
    (h : (probeTask (some u) env).1 = some r) : r.url = u := by
  by_cases h1 : checkConnect (some u) env = false
  · rw [probeTask_connect_fail _ _ h1] at h
    simp at h
  · rw [Bool.not_eq_false] at h1
    by_cases h2 : checkRpc env.rpcResp = false
    · rw [probeTask_rpc_fail _ _ h1 h2] at h
      simp at h
    · rw [Bool.not_eq_false] at h2
      rw [probeTask_pass _ _ h1 h2] at h
      simp only [Option.some.injEq] at h
      rw [← h]
      rfl

/-- `HEX_RESULT.test` succeeds exactly on `0x` followed by a non-empty
run of hexadecimal digits. -/
theorem hexResultTest_iff (s : String) :
    hexResultTest s = true ↔
      ∃ rest : List Char, s.data = '0' :: 'x' :: rest ∧ rest ≠ [] ∧
        ∀ c ∈ rest, hexDigit c = true := by
  unfold hexResultTest
  rcases hs : s.data with _ | ⟨c1, _ | ⟨c2, rest⟩⟩
  · simp
  · simp
  · simp only [Bool.and_eq_true, beq_iff_eq, Bool.not_eq_true', List.all_eq_true,
      List.cons.injEq]
    constructor
    · rintro ⟨⟨⟨rfl, rfl⟩, hne⟩, hall⟩
      exact ⟨rest, ⟨rfl, rfl, rfl⟩, List.isEmpty_eq_false.mp hne, hall⟩
    · rintro ⟨r, ⟨rfl, rfl, rfl⟩, hne, hall⟩
      exact ⟨⟨⟨rfl, rfl⟩, List.isEmpty_eq_false.mpr hne⟩, hall⟩

/-! ## Chain-processing lemmas -/

/-- `getRpcs` on a chain whose entries are all plain URL strings. -/
theorem getRpcs_str (name cidOpt : Option String) (entries : List String) :
    getRpcs ⟨name, cidOpt, entries.map RpcInput.str⟩ = entries.map some := by
  unfold getRpcs
  rw [List.map_map]
  have hc : ((fun e : RpcInput =>
      match e with
      | .str s => some s
      | .urlObj u => some u
      | .other => none) ∘ RpcInput.str) = fun s => some s := by
    funext s
    rfl
  rw [hc]

/-- When every URL is a real string, the report loop never throws and
collects exactly the present outcomes, in order. -/
theorem reportLoop_all_some (us : List String) :
    ∀ os : List (Option RpcEntry), os.length = us.length →
      reportLoop (us.map some) os = .ok (os.filterMap id) := by
  induction us with
  | nil =>
    intro os h
    have hos : os = [] := List.eq_nil_of_length_eq_zero h
    subst hos
    rfl
  | cons u us ih =>
    intro os h
    rcases os with _ | ⟨o, os'⟩
    · simp at h
    · have h' : os'.length = us.length := by simpa using h
      cases o with
      | some r => simp [reportLoop, List.filterMap_cons, ih os' h', Except.map]
      | none => simp [reportLoop, List.filterMap_cons, ih os' h']

/-- A `filterMap` that can only ever return `f a` at `a` is the `map` of
`f` over the kept elements. -/
theorem filterMap_eq_filter_map {α β : Type} (g : α → Option β) (f : α → β) (l : List α)
    (h : ∀ a ∈ l, ∀ b, g a = some b → b = f a) :
    l.filterMap g = (l.filter fun a => (g a).isSome).map f := by
  induction l with
  | nil => rfl
  | cons x xs ih =>
    have ih' := ih fun a ha b hb => h a (List.mem_cons_of_mem _ ha) b hb
    cases hg : g x with
    | none => simp [List.filterMap_cons, List.filter_cons, hg, ih']
    | some b =>
      have hb := h x (List.mem_cons_self _ _) b hg
      simp [List.filterMap_cons, List.filter_cons, hg, ih', hb]

/-- On a chain of plain string URLs with a valid id, `processChain`
probes every URL and writes a fresh payload whose `rpcs` are the present
outcomes in candidate order. -/
theorem processChain_strings (name : Option String) (cid : String) (entries : List String)
    (envs : List ProbeEnv) (hcid : cid ≠ "") (hlen : envs.length = entries.length) :
    ∃ effs : List Effect,
      processChain false none ⟨name, some cid, entries.map RpcInput.str⟩ envs
        = .ok (some (.fresh ⟨name.getD "unknown", cid,
            ((entries.zip envs).map fun q => (probeTask (some q.1) q.2).1).filterMap id⟩),
            effs) := by
  by_cases hne : entries = []
  · subst hne
    have henv : envs = [] := List.eq_nil_of_length_eq_zero (by simpa using hlen)
    subst henv
    exact ⟨[.write cid ⟨name.getD "unknown", cid, []⟩], by simp [processChain, hcid, getRpcs]⟩
  · have hzip : (entries.map some).zip envs
        = (entries.zip envs).map fun q => (some q.1, q.2) := by
      rw [List.zip_map_left]
      rfl
    have hout : (((entries.map some).zip envs).map fun p => (probeTask p.1 p.2).1)
        = (entries.zip envs).map fun q => (probeTask (some q.1) q.2).1 := by
      rw [hzip, List.map_map]
      rfl
    have hlen2 : ((entries.zip envs).map fun q => (probeTask (some q.1) q.2).1).length
        = entries.length := by
      simp [hlen]
    have hreport := reportLoop_all_some entries
      ((entries.zip envs).map fun q => (probeTask (some q.1) q.2).1) hlen2
    have hie : (entries.map some).isEmpty = false := by
      rcases entries with _ | ⟨e, es⟩
      · exact absurd rfl hne
      · rfl
    refine ⟨((((List.map some entries).zip envs).map fun p => (probeTask p.1 p.2).2).flatten.map
        Effect.net)
      ++ [Effect.write cid ⟨name.getD "unknown", cid,
          ((entries.zip envs).map fun q => (probeTask (some q.1) q.2).1).filterMap id⟩], ?_⟩
    simp only [processChain, getRpcs_str, hie, Bool.false_eq_true, if_false, if_neg hcid,
      hout, hreport]

/-! ## Claim theorems -/

/-- Probe environment where the connectivity stage fails. -/
def envConnectFail : ProbeEnv := ⟨false, none, none, .failed⟩

/-- Probe environment where every stage succeeds. -/
def envAllPass : ProbeEnv :=
  ⟨true, some (.obj [("result", .str "0x1")]), some "node.example", .records ["::1"]⟩

/-- C1: the claim says `batchCall` never has more than `C` tasks in flight
at any instant.  The code violates it: the worker loop stores each task's
promise without awaiting it, so the first worker starts every task within
the initial synchronous slice.  With two one-tick tasks and concurrency
limit 1, both tasks are concurrently executing at instant 0. -/
theorem batchCall_exceeds_concurrency_limit :
    concurrentAt ([⟨1, Except.ok 0⟩, ⟨1, Except.ok 1⟩] : List (AsyncTask Nat)) 1 0 = 2 := rfl

/-- C2: with any concurrency `C ≥ 1`, `batchCall` claims every task index
exactly once (the claim list is exactly `0, …, N-1`), and, when every task
fulfills, returns a list of exactly `N` results whose `i`-th element is
the outcome of task `i`, whatever the tasks' step counts (completion
order). -/
theorem batchCall_positional {V : Type} (tasks : List (AsyncTask V)) (C : Nat)
    (hC : 1 ≤ C) (hok : ∀ t ∈ tasks, ∃ v, t.outcome = Except.ok v) :
    batchClaims tasks.length C = List.range tasks.length ∧
    ∃ vs : List V, batchCall tasks C = .ok vs ∧ vs.length = tasks.length ∧
      ∀ (i : Nat) (t : AsyncTask V), tasks[i]? = some t → vs[i]? = t.outcome.toOption := by
  refine ⟨batchClaims_eq_range _ _ hC, ?_⟩
  have hbc : batchCall tasks C = .ok (tasks.filterMap fun t => t.outcome.toOption) := by
    rw [batchCall_eq tasks C hC, firstRejection_none tasks hok]
  obtain ⟨hlen, hidx⟩ := filterMap_all_isSome (fun t => t.outcome.toOption) tasks
    (by intro t ht; obtain ⟨v, hv⟩ := hok t ht; simp [hv, Except.toOption])
  exact ⟨_, hbc, hlen, hidx⟩

/-- Witness for C2 at three fulfilling tasks with unequal step counts
(task 1 finishes first, task 0 last) and concurrency 2. -/
theorem batchCall_positional_witness :
    batchClaims 3 2 = List.range 3 ∧
    ∃ vs : List Nat,
      batchCall [⟨3, Except.ok 10⟩, ⟨1, Except.ok 20⟩, ⟨2, Except.ok 30⟩] 2 = .ok vs ∧
      vs.length = 3 ∧
      ∀ (i : Nat) (t : AsyncTask Nat),
        ([⟨3, Except.ok 10⟩, ⟨1, Except.ok 20⟩, ⟨2, Except.ok 30⟩] :
          List (AsyncTask Nat))[i]? = some t →
        vs[i]? = t.outcome.toOption := by
  have h := batchCall_positional
    ([⟨3, Except.ok 10⟩, ⟨1, Except.ok 20⟩, ⟨2, Except.ok 30⟩] : List (AsyncTask Nat)) 2
    (by omega)
    (by
      intro t ht
      simp only [List.mem_cons, List.not_mem_nil, or_false] at ht
      rcases ht with rfl | rfl | rfl <;> exact ⟨_, rfl⟩)
  exact h

/-- C3 counterexample: the claim says `batchCall` converts a task's
rejection into a "no result" sentinel and still returns a full list.  In
the code the final `Promise.all(results)` simply rejects: with a
fulfilling first task and a rejecting second one, `batchCall` rejects with
the task's error instead of returning any list. -/
theorem batchCall_propagates_rejection :
    batchCall [⟨1, Except.ok "a"⟩, ⟨1, Except.error "boom"⟩] 2 = .error "boom" := rfl

/-- C3 as amended: the failure-to-sentinel conversion lives in the prober
tasks, not in `batchCall`.  A task built by `main` never rejects — every
stage converts its errors internally — so `batchCall` fulfills with the
full positional outcome list, and a candidate that fails its connectivity
check contributes the `null` sentinel at its own position. -/
theorem probe_tasks_never_reject (ps : List (Option String × ProbeEnv)) (d C : Nat)
    (hC : 1 ≤ C) :
    batchCall (ps.map fun p => ⟨d, Except.ok (probeTask p.1 p.2).1⟩) C
      = .ok (ps.map fun p => (probeTask p.1 p.2).1) ∧
    ∀ (i : Nat) (p : Option String × ProbeEnv), ps[i]? = some p →
      checkConnect p.1 p.2 = false →
      (ps.map fun p => (probeTask p.1 p.2).1)[i]? = some none := by
  constructor
  · have hok : ∀ t ∈ ps.map fun p =>
        (⟨d, Except.ok (probeTask p.1 p.2).1⟩ : AsyncTask (Option RpcEntry)),
        ∃ v, t.outcome = Except.ok v := by
      intro t ht
      simp only [List.mem_map] at ht
      obtain ⟨p, _, rfl⟩ := ht
      exact ⟨_, rfl⟩
    rw [batchCall_eq _ _ hC, firstRejection_none _ hok]
    have hfm : ∀ l : List (Option String × ProbeEnv),
        (l.map fun p =>
          (⟨d, Except.ok (probeTask p.1 p.2).1⟩ : AsyncTask (Option RpcEntry))).filterMap
            (fun t => t.outcome.toOption)
          = l.map fun p => (probeTask p.1 p.2).1 := by
      intro l
      induction l with
      | nil => rfl
      | cons a as ih =>
        simp only [List.map_cons, List.filterMap_cons, Except.toOption]
        exact congrArg (List.cons (probeTask a.1 a.2).1) ih
    rw [hfm]
  · intro i p hp hcf
    rw [List.getElem?_map, hp]
    simp only [Option.map_some']
    rw [probeTask_connect_fail _ _ hcf]

/-- Witness for C3's amended claim: two probe tasks, the first failing its
connectivity check, scheduled at concurrency 1: `batchCall` fulfills with
`[null, present]` and the sentinel sits at position 0. -/
theorem probe_tasks_never_reject_witness :
    batchCall
      ([(some "u", ⟨false, none, none, .failed⟩),
        (some "v", ⟨true, some (.obj [("result", .str "0x1")]), some "h", .records ["::1"]⟩)].map
        fun p => ⟨1, Except.ok (probeTask p.1 p.2).1⟩) 1
      = .ok [none, some ⟨"v", true⟩] ∧
    ([(some "u", (⟨false, none, none, .failed⟩ : ProbeEnv)),
      (some "v", ⟨true, some (.obj [("result", .str "0x1")]), some "h", .records ["::1"]⟩)].map
      fun p => (probeTask p.1 p.2).1)[0]? = some none := by
  have h := probe_tasks_never_reject
    [(some "u", (⟨false, none, none, .failed⟩ : ProbeEnv)),
     (some "v", ⟨true, some (.obj [("result", .str "0x1")]), some "h", .records ["::1"]⟩)]
    1 1 (by omega)
  exact ⟨h.1, h.2 0 (some "u", ⟨false, none, none, .failed⟩) rfl rfl⟩

/-- C4: the probe runs its stages in order and short-circuits: a failed
connectivity check yields an absent outcome with neither the RPC nor the
DNS request issued; a failed RPC check yields an absent outcome with no
DNS request; if both gates pass, a failing IPv6 stage still yields a
present outcome, with `supportsIpv6 = false`. -/
theorem probe_short_circuits (url : String) (env : ProbeEnv) :
    (env.connectOk = false →
      (probeTask (some url) env).1 = none ∧
      Query.rpcReq ∉ (probeTask (some url) env).2 ∧
      Query.dnsReq ∉ (probeTask (some url) env).2) ∧
    (env.connectOk = true → checkRpc env.rpcResp = false →
      (probeTask (some url) env).1 = none ∧
      Query.dnsReq ∉ (probeTask (some url) env).2) ∧
    (env.connectOk = true → checkRpc env.rpcResp = true →
      (checkIpv6 (extractHost env.urlHost) env.dns).1 = false →
      (probeTask (some url) env).1 = some ⟨url, false⟩) := by
  refine ⟨?_, ?_, ?_⟩
  · intro h
    rw [probeTask_connect_fail _ _ (by simp [checkConnect, h])]
    refine ⟨rfl, by decide, by decide⟩
  · intro h1 h2
    rw [probeTask_rpc_fail _ _ (by simp [checkConnect, h1]) h2]
    refine ⟨rfl, by decide⟩
  · intro h1 h2 h3
    rw [probeTask_pass _ _ (by simp [checkConnect, h1]) h2]
    simp [h3]

/-- Witness for C4 in all three regimes, with concrete environments. -/
theorem probe_short_circuits_witness :
    ((probeTask (some "u") ⟨false, none, none, .failed⟩).1 = none ∧
      Query.rpcReq ∉ (probeTask (some "u") ⟨false, none, none, .failed⟩).2 ∧
      Query.dnsReq ∉ (probeTask (some "u") ⟨false, none, none, .failed⟩).2) ∧
    ((probeTask (some "u") ⟨true, none, none, .failed⟩).1 = none ∧
      Query.dnsReq ∉ (probeTask (some "u") ⟨true, none, none, .failed⟩).2) ∧
    (probeTask (some "u")
      ⟨true, some (.obj [("result", .str "0x1")]), some "h", .failed⟩).1 = some ⟨"u", false⟩ := by
  refine ⟨(probe_short_circuits "u" ⟨false, none, none, .failed⟩).1 rfl,
    (probe_short_circuits "u" ⟨true, none, none, .failed⟩).2.1 rfl rfl,
    (probe_short_circuits "u"
      ⟨true, some (.obj [("result", .str "0x1")]), some "h", .failed⟩).2.2 rfl rfl rfl⟩

/-- C5: `checkRpc` succeeds iff the body parsed as JSON whose `result`
field is a string of the shape `0x` followed by at least one hex digit;
it accepts `{"result":"0x1a2b"}` and rejects `{"result":"1a2b"}`,
`{"result":123}` and a non-JSON body. -/
theorem checkRpc_spec :
    (∀ j : Json, checkRpc (some j) = true ↔
      ∃ (s : String) (rest : List Char),
        jsField j "result" = some (.str s) ∧ s.data = '0' :: 'x' :: rest ∧
        rest ≠ [] ∧ ∀ c ∈ rest, hexDigit c = true) ∧
    checkRpc none = false ∧
    checkRpc (some (.obj [("result", .str "0x1a2b")])) = true ∧
    checkRpc (some (.obj [("result", .str "1a2b")])) = false ∧
    checkRpc (some (.obj [("result", .num 123)])) = false := by
  refine ⟨?_, rfl, rfl, rfl, rfl⟩
  intro j
  unfold checkRpc
  cases hf : jsField j "result" with
  | none => simp [hf]
  | some v =>
    cases v with
    | str s => simp [hf, hexResultTest_iff]
    | null => simp [hf]
    | bool b => simp [hf]
    | num n => simp [hf]
    | arr xs => simp [hf]
    | obj fs => simp [hf]

/-- C9: for a probed URL the IPv6 flag is false whenever the hostname is
empty (and then no resolution is attempted at all), the AAAA lookup
errors, it times out, or it returns zero records; it is true exactly when
at least one AAAA record comes back.  An unparseable URL gives the empty
hostname. -/
theorem checkIpv6_spec (host : String) (dns : DnsOutcome) :
    (host = "" → checkIpv6 host dns = (false, false)) ∧
    (host ≠ "" → (checkIpv6 host dns).2 = true) ∧
    (host ≠ "" → dns = .failed ∨ dns = .timedOut → (checkIpv6 host dns).1 = false) ∧
    (host ≠ "" → ∀ rs, dns = .records rs → ((checkIpv6 host dns).1 = true ↔ rs ≠ [])) ∧
    extractHost none = "" := by
  refine ⟨?_, ?_, ?_, ?_, rfl⟩
  · intro h
    simp [checkIpv6, h]
  · intro h
    cases dns <;> simp [checkIpv6, h]
  · rintro h (rfl | rfl) <;> simp [checkIpv6, h]
  · rintro h rs rfl
    simp [checkIpv6, h, List.isEmpty_iff]

/-- C6: whenever `processChain` persists a fresh payload for a chain of
string candidates, the payload's `rpcs` URLs are exactly the candidates
whose probe outcome was present, kept in candidate order, and in
particular an order-preserving subsequence of the candidate list. -/
theorem chain_rpcs_subsequence (name : Option String) (cid : String) (entries : List String)
    (envs : List ProbeEnv) (hcid : cid ≠ "") (hlen : envs.length = entries.length) :
    ∀ (p : Payload) (effs : List Effect),
      processChain false none ⟨name, some cid, entries.map RpcInput.str⟩ envs
        = .ok (some (.fresh p), effs) →
      p.rpcs.map RpcEntry.url
        = ((entries.zip envs).filter fun q => ((probeTask (some q.1) q.2).1).isSome).map
            Prod.fst ∧
      List.Sublist (p.rpcs.map RpcEntry.url) entries := by
  intro p effs hp
  obtain ⟨effs0, heq⟩ := processChain_strings name cid entries envs hcid hlen
  rw [heq] at hp
  simp only [Except.ok.injEq, Prod.mk.injEq, Option.some.injEq, MergedEntry.fresh.injEq] at hp
  have hpay : p = ⟨name.getD "unknown", cid,
      ((entries.zip envs).map fun q => (probeTask (some q.1) q.2).1).filterMap id⟩ :=
    hp.1.symm
  subst hpay
  have hfm : (((entries.zip envs).map fun q => (probeTask (some q.1) q.2).1).filterMap id)
      = (entries.zip envs).filterMap fun q => (probeTask (some q.1) q.2).1 := by
    rw [List.filterMap_map]
    rfl
  have hmain : ((((entries.zip envs).map fun q => (probeTask (some q.1) q.2).1).filterMap
        id).map RpcEntry.url)
      = ((entries.zip envs).filter fun q => ((probeTask (some q.1) q.2).1).isSome).map
          Prod.fst := by
    rw [hfm, List.map_filterMap]
    rw [filterMap_eq_filter_map (fun q => ((probeTask (some q.1) q.2).1).map RpcEntry.url)
      Prod.fst _ ?_]
    · congr 1
      apply List.filter_congr
      intro a _
      simp
    · intro a _ b hb
      dsimp only at hb
      rcases ho : (probeTask (some a.1) a.2).1 with _ | r
      · rw [ho] at hb
        simp at hb
      · rw [ho] at hb
        simp only [Option.map_some', Option.some.injEq] at hb
        rw [← hb]
        exact probeTask_url _ _ _ ho
  refine ⟨hmain, ?_⟩
  rw [hmain]
  have hs := (List.filter_sublist
    (p := fun q => ((probeTask (some q.1) q.2).1).isSome) (entries.zip envs)).map Prod.fst
  rwa [List.map_fst_zip entries envs (by omega)] at hs

/-- Witness for C6: candidates `[A, B, C]` with outcomes
`[fail, ok, ok]` yield the URL list `[B, C]`, a subsequence of the
candidates. -/
theorem chain_rpcs_subsequence_witness :
    ([⟨"B", true⟩, ⟨"C", true⟩] : List RpcEntry).map RpcEntry.url
      = ((["A", "B", "C"].zip [envConnectFail, envAllPass, envAllPass]).filter
          fun q => ((probeTask (some q.1) q.2).1).isSome).map Prod.fst ∧
    List.Sublist (([⟨"B", true⟩, ⟨"C", true⟩] : List RpcEntry).map RpcEntry.url)
      ["A", "B", "C"] :=
  chain_rpcs_subsequence (some "c") "1" ["A", "B", "C"]
    [envConnectFail, envAllPass, envAllPass] (by decide) rfl
    ⟨"c", "1", [⟨"B", true⟩, ⟨"C", true⟩]⟩ _ rfl

/-- C7: in skip-existing mode, a chain (with a valid id) whose per-chain
file exists produces no effect at all — no stage request, no write — and
its merged entry is exactly the parsed content of the existing file. -/
theorem skip_existing_reuses_file (chain : ChainData) (cid : String) (doc : Json)
    (envs : List ProbeEnv) (hid : chain.chainId = some cid) (hcid : cid ≠ "") :
    processChain true (some doc) chain envs = .ok (some (.fromFile doc), []) := by
  unfold processChain
  rw [hid]
  dsimp only
  rw [if_neg hcid]

/-- Witness for C7 at a concrete chain and cached document. -/
theorem skip_existing_reuses_file_witness :
    processChain true (some (.str "cached")) ⟨some "n", some "5", [RpcInput.str "x"]⟩ []
      = .ok (some (.fromFile (.str "cached")), []) :=
  skip_existing_reuses_file ⟨some "n", some "5", [RpcInput.str "x"]⟩ "5" (.str "cached") []
    rfl (by decide)

/-- C8: the claim says a malformed candidate entry never crashes the run.
The code crashes on an entry without a `url` field: `getRpcs` passes
`undefined` through, and the per-URL report line evaluates `url.length`
on `undefined`, throwing a `TypeError` that aborts `main`.  Here a chain
with one such entry makes `processChain` return that error instead of a
result. -/
theorem missing_url_field_crashes_run :
    processChain false none ⟨some "c", some "1", [RpcInput.other]⟩ [envConnectFail]
      = .error "TypeError: url is undefined" := rfl

/-- C10 counterexample: the claim says an explicit numeric `--batch` value
is clamped into `[1, 128]`, so `--batch=0` would give 1; the code instead
falls back to the default 16 for every value below 1. -/
theorem batch_below_one_not_clamped :
    effectiveBatchSize (some (some 0)) = 16 ∧
    effectiveBatchSize (some (some 0)) ≠ max 1 (min 0 128) := by
  constructor
  · rfl
  · decide

/-- C10 as amended: the effective concurrency always lies in `[1, 128]`;
it is 16 when the argument is absent, unparseable, or below 1, and an
explicit value of at least 1 is clamped above to 128. -/
theorem effectiveBatchSize_spec (b : Option (Option Int)) :
    1 ≤ effectiveBatchSize b ∧ effectiveBatchSize b ≤ 128 ∧
    (b = none → effectiveBatchSize b = 16) ∧
    (b = some none → effectiveBatchSize b = 16) ∧
    (∀ v : Int, b = some (some v) → v < 1 → effectiveBatchSize b = 16) ∧
    (∀ v : Int, b = some (some v) → 1 ≤ v → effectiveBatchSize b = min v 128) := by
  rcases b with _ | _ | v
  · exact ⟨by decide, by decide, fun _ => by decide, fun h => by simp at h,
      fun v h => by simp at h, fun v h => by simp at h⟩
  · exact ⟨by decide, by decide, fun h => by simp at h, fun _ => by decide,
      fun v h => by simp at h, fun v h => by simp at h⟩
  · have he : effectiveBatchSize (some (some v)) = if v < 1 then 16 else min v 128 := rfl
    refine ⟨?_, ?_, fun h => by simp at h, fun h => by simp at h, ?_, ?_⟩
    · rw [he]
      by_cases hv : v < 1
      · rw [if_pos hv]
        norm_num
      · rw [if_neg hv, min_def]
        split <;> omega
    · rw [he]
      by_cases hv : v < 1
      · rw [if_pos hv]
        norm_num
      · rw [if_neg hv, min_def]
        split <;> omega
    · intro w hw hlt
      simp only [Option.some.injEq] at hw
      subst hw
      rw [he, if_pos hlt]
    · intro w hw hge
      simp only [Option.some.injEq] at hw
      subst hw
      rw [he, if_neg (by omega)]

/-- Witness for C10's amended claim: `--batch=200` is clamped to 128 and
stays within the interval. -/
theorem effectiveBatchSize_spec_witness :
    effectiveBatchSize (some (some 200)) = min 200 128 ∧
    1 ≤ effectiveBatchSize (some (some 200)) ∧
    effectiveBatchSize (some (some 200)) ≤ 128 :=
  ⟨(effectiveBatchSize_spec (some (some 200))).2.2.2.2.2 200 rfl (by decide),
   (effectiveBatchSize_spec (some (some 200))).1,
   (effectiveBatchSize_spec (some (some 200))).2.1⟩

/-- Witness for C9: empty host attempts nothing; a non-empty host with one
AAAA record yields `true`, with a timeout yields `false`. -/
theorem checkIpv6_spec_witness :
    checkIpv6 "" (.records ["::1"]) = (false, false) ∧
    (checkIpv6 "node.example" (.records ["::1"])).1 = true ∧
    (checkIpv6 "node.example" .timedOut).1 = false := by
  refine ⟨(checkIpv6_spec "" (.records ["::1"])).1 rfl, ?_, ?_⟩
  · exact ((checkIpv6_spec "node.example" (.records ["::1"])).2.2.2.1 (by decide)
      ["::1"] rfl).mpr (by decide)
  · exact (checkIpv6_spec "node.example" .timedOut).2.2.1 (by decide) (Or.inr rfl)

end RpcTester
